import Mathlib

/-!
Verification of the string/value conversion engine described by the
repository's specification.  The repository ships only documentation
examples and unit tests (src/example/algorithms.cpp); the conversion
library itself (the `boost::convert` front end and its converters) is not
part of the sources, so the engine below is modelled from the
specification's words and checked against the behaviours the tests pin
down.
-/

namespace Convert

/-- Modelled from the spec: numeric radix for integer↔text conversion.
The library's `boost::cnv::base` enumeration is not in the sources. -/
inductive Base where
  | dec : Base
  | hex : Base
  | oct : Base
deriving DecidableEq, Repr

/-- Modelled from the spec: padding side for width adjustment.  The
library's `boost::cnv::adjustment` enumeration is not in the sources. -/
inductive Adjustment where
  | left : Adjustment
  | right : Adjustment
deriving DecidableEq, Repr

/-- Modelled from the spec: letter case used for alphabetic digits. -/
inductive LetterCase where
  | upper : LetterCase
  | lower : LetterCase
deriving DecidableEq, Repr

/-- Modelled from the spec: the recognized configuration options with
their defaults (minimum width 0 means no padding; right adjustment,
i.e. left padding, is the default; radix auto-detection when `base` is
unspecified).  The library's parameter objects are not in the sources. -/
structure Configuration where
  base : Option Base := none
  width : Nat := 0
  fill : Char := ' '
  adjustment : Adjustment := Adjustment.right
  letterCase : LetterCase := LetterCase.upper
  showBase : Bool := false
  skipLeadingWhitespace : Bool := false
deriving DecidableEq, Repr

/-- Modelled from the spec: the tagged outcome of a conversion, with no
partial or ambiguous state. -/
inductive ConversionResult where
  | Success : Int → ConversionResult
  | Failure : ConversionResult
deriving DecidableEq, Repr

/-- Modelled from the spec: the exception raised by the throwing accessor
`value()` on a Failure result (the tests catch `boost::bad_optional_access`,
which is likewise not in the sources). -/
structure ConversionError where
deriving DecidableEq, Repr

/-- Numeric value of a base. -/
def baseNat : Base → Nat
  | Base.dec => 10
  | Base.hex => 16
  | Base.oct => 8

/-- Lower bound of the target `int` type (32-bit, as in the tests). -/
def intMin : Int := -2147483648

/-- Upper bound of the target `int` type (32-bit, as in the tests). -/
def intMax : Int := 2147483647

/-- Whitespace characters skipped by `skipLeadingWhitespace`. -/
def isWs (c : Char) : Bool :=
  c = ' ' || c = '\t' || c = '\n' || c = '\r' || c = '\x0b' || c = '\x0c'

/-- Value of a character as a hexadecimal digit, accepting both letter
cases; `none` when the character is not a hexadecimal digit. -/
def hexVal (c : Char) : Option Nat :=
  if '0' ≤ c ∧ c ≤ '9' then some (c.toNat - '0'.toNat)
  else if 'a' ≤ c ∧ c ≤ 'f' then some (c.toNat - 'a'.toNat + 10)
  else if 'A' ≤ c ∧ c ≤ 'F' then some (c.toNat - 'A'.toNat + 10)
  else none

/-- Value of a character as a digit in base `b`; `none` when it is not a
valid digit of that base. -/
def digitVal (b : Nat) (c : Char) : Option Nat :=
  match hexVal c with
  | some v => if v < b then some v else none
  | none => none

/-- The character rendering digit value `d`, upper or lower case. -/
def digitChar (up : Bool) (d : Nat) : Char :=
  if d < 10 then Char.ofNat ('0'.toNat + d)
  else if up then Char.ofNat ('A'.toNat + (d - 10))
  else Char.ofNat ('a'.toNat + (d - 10))

/-- Modelled from the spec: consume the longest prefix of valid digits of
base `b`, returning their values together with the unconsumed suffix. -/
def takeDigits (b : Nat) : List Char → List Nat × List Char
  | [] => ([], [])
  | c :: cs =>
    match digitVal b c with
    | some d =>
      let p := takeDigits b cs
      (d :: p.1, p.2)
    | none => ([], c :: cs)

/-- Numeric value of a digit sequence read most-significant first. -/
def fromDigits (b : Nat) (ds : List Nat) : Nat :=
  ds.foldl (fun a d => a * b + d) 0

/-- Read an optional sign character. -/
def readSign (l : List Char) : Bool × List Char :=
  match l with
  | [] => (false, [])
  | c :: rest =>
    if c = '-' then (true, rest)
    else if c = '+' then (false, rest)
    else (false, c :: rest)

/-- Whether the text starts with a "0x"/"0X" radix marker. -/
def hasHexMarker (l : List Char) : Bool :=
  match l with
  | c0 :: c1 :: _ => c0 = '0' && (c1 = 'x' || c1 = 'X')
  | _ => false

/-- Modelled from the spec: the radix marker of an input parsed as
hexadecimal is consumed rather than treated as trailing garbage. -/
def stripRadixPrefix (b : Base) (l : List Char) : List Char :=
  match b, l with
  | Base.hex, c0 :: c1 :: rest =>
    if c0 = '0' ∧ (c1 = 'x' ∨ c1 = 'X') then rest else c0 :: c1 :: rest
  | _, l => l

/-- Modelled from the spec: the base used for parsing — the configured one
when present, otherwise hexadecimal when a "0x"/"0X" marker is detected
and decimal otherwise. -/
def effectiveBase (cfg : Configuration) (l : List Char) : Base :=
  match cfg.base with
  | some b => b
  | none => if hasHexMarker l then Base.hex else Base.dec

/-- Preprocessing stage of text→integer conversion: optional whitespace
skipping, sign, base selection, radix-marker removal.  Returns the sign,
the effective base and the characters left for the digit scan. -/
def scanChars (s : String) (cfg : Configuration) : Bool × Base × List Char :=
  let l0 := if cfg.skipLeadingWhitespace then s.data.dropWhile isWs else s.data
  let p := readSign l0
  let b := effectiveBase cfg p.2
  (p.1, b, stripRadixPrefix b p.2)

/-- Core of text→integer conversion after preprocessing: fail on an empty
numeral, on trailing meaningful characters, or on overflow of the target
type; succeed with the signed value otherwise. -/
def convertCore (neg : Bool) (b : Base) (l : List Char) : ConversionResult :=
  let p := takeDigits (baseNat b) l
  if p.1.isEmpty then ConversionResult.Failure
  else if !((p.2.dropWhile isWs).isEmpty) then ConversionResult.Failure
  else
    let m : Int := Int.ofNat (fromDigits (baseNat b) p.1)
    let v : Int := if neg then -m else m
    if v < intMin ∨ intMax < v then ConversionResult.Failure
    else ConversionResult.Success v

/-- Modelled from the spec: text→integer conversion under a configuration
(the `boost::convert<int>` call direction); the library implementation is
not in the sources. -/
def convert (s : String) (cfg : Configuration) : ConversionResult :=
  convertCore (scanChars s cfg).1 (scanChars s cfg).2.1 (scanChars s cfg).2.2

/-- Digit characters of `n` in base `b`, most significant first, with an
explicit fuel argument for structural recursion (`fuel > n` suffices). -/
def toBaseCharsAux (b : Nat) (up : Bool) : Nat → Nat → List Char
  | 0, _ => []
  | fuel + 1, n =>
    if n < b then [digitChar up n]
    else toBaseCharsAux b up fuel (n / b) ++ [digitChar up (n % b)]

/-- Digit characters of `n` in base `b`, most significant first. -/
def toBaseChars (b : Nat) (up : Bool) (n : Nat) : List Char :=
  toBaseCharsAux b up (n + 1) n

/-- Whether the configuration asks for upper-case digits. -/
def isUpperCfg (cfg : Configuration) : Bool :=
  match cfg.letterCase with
  | LetterCase.upper => true
  | LetterCase.lower => false

/-- The base used when rendering: the configured one, decimal by default. -/
def renderBase (cfg : Configuration) : Base :=
  match cfg.base with
  | some b => b
  | none => Base.dec

/-- Radix marker prepended when `showBase` is set. -/
def basePrefix (b : Base) (up : Bool) : List Char :=
  match b with
  | Base.hex => if up then ['0', 'X'] else ['0', 'x']
  | Base.oct => ['0']
  | Base.dec => []

/-- Modelled from the spec: pad to `width` with `fill` on the side given
by `adjustment` (right adjustment pads on the left). -/
def pad (cfg : Configuration) (core : List Char) : List Char :=
  if core.length < cfg.width then
    let fills := List.replicate (cfg.width - core.length) cfg.fill
    match cfg.adjustment with
    | Adjustment.right => fills ++ core
    | Adjustment.left => core ++ fills
  else core

/-- Character sequence of the rendering of `n` under `cfg`: sign, optional
radix marker, digits in the configured base and case, then padding. -/
def renderChars (n : Int) (cfg : Configuration) : List Char :=
  pad cfg
    ((if n < 0 then ['-'] else [])
      ++ (if cfg.showBase then basePrefix (renderBase cfg) (isUpperCfg cfg) else [])
      ++ toBaseChars (baseNat (renderBase cfg)) (isUpperCfg cfg) n.natAbs)

/-- Modelled from the spec: integer→text rendering under a configuration
(the `boost::convert<std::string>` call direction); the library
implementation is not in the sources. -/
def render (n : Int) (cfg : Configuration) : String :=
  String.mk (renderChars n cfg)

/-- Modelled from the spec: the throwing accessor — unwraps a Success,
signals `ConversionError` on a Failure. -/
def value (r : ConversionResult) : Except ConversionError Int :=
  match r with
  | ConversionResult.Success v => Except.ok v
  | ConversionResult.Failure => Except.error ConversionError.mk

/-- Modelled from the spec: the non-throwing accessor — unwraps a Success,
substitutes the default on a Failure. -/
def valueOr (r : ConversionResult) (d : Int) : Int :=
  match r with
  | ConversionResult.Success v => v
  | ConversionResult.Failure => d

/-- A batch of conversion requests processed in sequence; used to state
that conversions carry no cross-call state. -/
def runAll (reqs : List (String × Configuration)) : List ConversionResult :=
  reqs.map (fun r => convert r.1 r.2)

end Convert

namespace Convert

lemma hexVal_digitChar (up : Bool) (d : Nat) (h : d < 16) :
    hexVal (digitChar up d) = some d := by
  have key : ∀ i : Fin 16, ∀ u : Bool, hexVal (digitChar u i.val) = some i.val := by decide
  exact key ⟨d, h⟩ up

lemma digitVal_digitChar (b : Nat) (up : Bool) (d : Nat) (hd : d < b) (hb : b ≤ 16) :
    digitVal b (digitChar up d) = some d := by
  unfold digitVal
  rw [hexVal_digitChar up d (lt_of_lt_of_le hd hb)]
  simp [hd]

lemma digitVal_dash (b : Nat) : digitVal b '-' = none := by
  have h : hexVal '-' = none := by decide
  unfold digitVal
  rw [h]

lemma digitVal_plus (b : Nat) : digitVal b '+' = none := by
  have h : hexVal '+' = none := by decide
  unfold digitVal
  rw [h]

lemma digitVal_x_lower (b : Nat) : digitVal b 'x' = none := by
  have h : hexVal 'x' = none := by decide
  unfold digitVal
  rw [h]

lemma digitVal_x_upper (b : Nat) : digitVal b 'X' = none := by
  have h : hexVal 'X' = none := by decide
  unfold digitVal
  rw [h]

lemma takeDigits_all (b : Nat) : ∀ l : List Char,
    (∀ c ∈ l, (digitVal b c).isSome) →
    takeDigits b l = (l.map (fun c => (digitVal b c).getD 0), []) := by
  intro l
  induction l with
  | nil => intro _; rfl
  | cons c cs ih =>
    intro h
    have hc : (digitVal b c).isSome := h c (List.mem_cons_self c cs)
    obtain ⟨d, hd⟩ := Option.isSome_iff_exists.mp hc
    have hcs := ih (fun x hx => h x (List.mem_cons_of_mem c hx))
    simp [takeDigits, hd, hcs]

lemma fromDigits_append_singleton (b : Nat) (xs : List Nat) (d : Nat) :
    fromDigits b (xs ++ [d]) = fromDigits b xs * b + d := by
  simp [fromDigits, List.foldl_append]

lemma toBaseCharsAux_spec (b : Nat) (up : Bool) (hb2 : 2 ≤ b) (hb16 : b ≤ 16) :
    ∀ fuel n, n < fuel →
      toBaseCharsAux b up fuel n ≠ []
      ∧ (∀ c ∈ toBaseCharsAux b up fuel n, (digitVal b c).isSome)
      ∧ fromDigits b ((toBaseCharsAux b up fuel n).map
          (fun c => (digitVal b c).getD 0)) = n := by
  intro fuel
  induction fuel with
  | zero => intro n hn; omega
  | succ fuel ih =>
    intro n hn
    by_cases hnb : n < b
    · refine ⟨by simp [toBaseCharsAux, hnb], ?_, ?_⟩
      · intro c hc
        simp [toBaseCharsAux, hnb] at hc
        subst hc
        rw [digitVal_digitChar b up n hnb hb16]
        rfl
      · simp [toBaseCharsAux, hnb, fromDigits, digitVal_digitChar b up n hnb hb16]
    · have hdiv : n / b < n := Nat.div_lt_self (by omega) (by omega)
      have hlt : n / b < fuel := by omega
      obtain ⟨ihne, ihall, ihfold⟩ := ih (n / b) hlt
      have hmod : n % b < b := Nat.mod_lt n (by omega)
      have hstep : toBaseCharsAux b up (fuel + 1) n =
          toBaseCharsAux b up fuel (n / b) ++ [digitChar up (n % b)] := by
        simp [toBaseCharsAux, hnb]
      refine ⟨by simp [hstep], ?_, ?_⟩
      · intro c hc
        rw [hstep] at hc
        rcases List.mem_append.mp hc with hc1 | hc2
        · exact ihall c hc1
        · simp at hc2
          subst hc2
          rw [digitVal_digitChar b up (n % b) hmod hb16]
          rfl
      · rw [hstep, List.map_append, List.map_singleton,
          digitVal_digitChar b up (n % b) hmod hb16]
        show fromDigits b (_ ++ [(some (n % b)).getD 0]) = n
        rw [fromDigits_append_singleton, ihfold, Nat.mul_comm]
        exact Nat.div_add_mod n b

lemma toBaseChars_spec (b : Nat) (up : Bool) (hb2 : 2 ≤ b) (hb16 : b ≤ 16) (n : Nat) :
    toBaseChars b up n ≠ []
    ∧ (∀ c ∈ toBaseChars b up n, (digitVal b c).isSome)
    ∧ fromDigits b ((toBaseChars b up n).map (fun c => (digitVal b c).getD 0)) = n :=
  toBaseCharsAux_spec b up hb2 hb16 (n + 1) n (Nat.lt_succ_self n)

lemma baseNat_two_le (b : Base) : 2 ≤ baseNat b := by cases b <;> decide

lemma baseNat_le16 (b : Base) : baseNat b ≤ 16 := by cases b <;> decide

lemma stripRadixPrefix_id (b : Base) (l : List Char)
    (h : ∀ c ∈ l, (digitVal (baseNat b) c).isSome) :
    stripRadixPrefix b l = l := by
  cases b with
  | dec => cases l with
    | nil => rfl
    | cons c0 t => cases t <;> rfl
  | oct => cases l with
    | nil => rfl
    | cons c0 t => cases t <;> rfl
  | hex =>
    cases l with
    | nil => rfl
    | cons c0 t =>
      cases t with
      | nil => rfl
      | cons c1 r =>
        by_cases hc : c0 = '0' ∧ (c1 = 'x' ∨ c1 = 'X')
        · exfalso
          have h1 : (digitVal (baseNat Base.hex) c1).isSome :=
            h c1 (List.mem_cons_of_mem c0 (List.mem_cons_self c1 r))
          rcases hc.2 with hx | hX
          · rw [hx, digitVal_x_lower] at h1; simp at h1
          · rw [hX, digitVal_x_upper] at h1; simp at h1
        · simp [stripRadixPrefix, hc]

lemma readSign_no_sign (c : Char) (cs : List Char) (h1 : c ≠ '-') (h2 : c ≠ '+') :
    readSign (c :: cs) = (false, c :: cs) := by
  simp [readSign, h1, h2]

end Convert

namespace Convert

lemma readSign_dash (l : List Char) : readSign ('-' :: l) = (true, l) := by
  simp [readSign]

lemma scanChars_signed_digits (b : Base) (neg : Bool) (L : List Char)
    (hne : L ≠ []) (hall : ∀ c ∈ L, (digitVal (baseNat b) c).isSome) :
    scanChars (String.mk ((if neg then ['-'] else []) ++ L)) { base := some b } =
      (neg, b, L) := by
  obtain ⟨c, cs, rfl⟩ := List.exists_cons_of_ne_nil hne
  have hc : (digitVal (baseNat b) c).isSome := hall c (List.mem_cons_self c cs)
  have hcd : c ≠ '-' := by
    intro h; rw [h, digitVal_dash] at hc; simp at hc
  have hcp : c ≠ '+' := by
    intro h; rw [h, digitVal_plus] at hc; simp at hc
  have hstrip := stripRadixPrefix_id b (c :: cs) hall
  cases neg with
  | false =>
    have h0 : scanChars (String.mk ((if false then ['-'] else []) ++ c :: cs))
        { base := some b } =
        ((readSign (c :: cs)).1, b, stripRadixPrefix b (readSign (c :: cs)).2) := rfl
    rw [h0, readSign_no_sign c cs hcd hcp, hstrip]
  | true =>
    have h0 : scanChars (String.mk ((if true then ['-'] else []) ++ c :: cs))
        { base := some b } =
        ((readSign ('-' :: c :: cs)).1, b,
          stripRadixPrefix b (readSign ('-' :: c :: cs)).2) := rfl
    rw [h0, readSign_dash, hstrip]

lemma convertCore_all_digits (b : Base) (neg : Bool) (L : List Char) (m : Nat)
    (hne : L ≠ []) (hall : ∀ c ∈ L, (digitVal (baseNat b) c).isSome)
    (hm : fromDigits (baseNat b) (L.map (fun c => (digitVal (baseNat b) c).getD 0)) = m)
    (hrange : ¬((if neg then -(Int.ofNat m) else Int.ofNat m) < intMin
        ∨ intMax < (if neg then -(Int.ofNat m) else Int.ofNat m))) :
    convertCore neg b L =
      ConversionResult.Success (if neg then -(Int.ofNat m) else Int.ofNat m) := by
  obtain ⟨c, cs, rfl⟩ := List.exists_cons_of_ne_nil hne
  simp only [convertCore, takeDigits_all (baseNat b) (c :: cs) hall, hm]
  push_neg at hrange
  simp [hrange]
  exact hrange

end Convert

namespace Convert

lemma render_base_only (b : Base) (n : Int) :
    render n { base := some b } =
      String.mk ((if n < 0 then ['-'] else [])
        ++ toBaseChars (baseNat b) true n.natAbs) := by
  unfold render renderChars pad
  simp [renderBase, isUpperCfg]

end Convert

namespace Convert


/-- C1: for every supported base `b` (decimal, hexadecimal, octal) and
every integer `n` within the representable range of the target integer
type, rendering `n` to text under base `b` and converting that text back
under the same base `b` yields `Success n` (round-trip). -/
theorem render_convert_roundtrip (b : Base) (n : Int)
    (h1 : intMin ≤ n) (h2 : n ≤ intMax) :
    convert (render n { base := some b }) { base := some b } =
      ConversionResult.Success n := by
  obtain ⟨hne, hall, hfold⟩ :=
    toBaseChars_spec (baseNat b) true (baseNat_two_le b) (baseNat_le16 b) n.natAbs
  have h1a : (-2147483648 : Int) ≤ n := h1
  have h2a : n ≤ (2147483647 : Int) := h2
  have hrender := render_base_only b n
  by_cases hn : n < 0
  · have hr : ¬(-(n.natAbs : Int) < (-2147483648 : Int)
        ∨ (2147483647 : Int) < -(n.natAbs : Int)) := by omega
    have hcore : convertCore true b (toBaseChars (baseNat b) true n.natAbs) =
        ConversionResult.Success (-(n.natAbs : Int)) :=
      convertCore_all_digits b true (toBaseChars (baseNat b) true n.natAbs)
        n.natAbs hne hall hfold hr
    have hscan2 : scanChars (String.mk (['-'] ++ toBaseChars (baseNat b) true n.natAbs))
        { base := some b } = (true, b, toBaseChars (baseNat b) true n.natAbs) :=
      scanChars_signed_digits b true (toBaseChars (baseNat b) true n.natAbs) hne hall
    rw [if_pos hn] at hrender
    unfold convert
    rw [hrender, hscan2]
    show convertCore true b (toBaseChars (baseNat b) true n.natAbs) =
      ConversionResult.Success n
    rw [hcore]
    congr 1
    omega
  · have hr : ¬((n.natAbs : Int) < (-2147483648 : Int)
        ∨ (2147483647 : Int) < (n.natAbs : Int)) := by omega
    have hcore : convertCore false b (toBaseChars (baseNat b) true n.natAbs) =
        ConversionResult.Success ((n.natAbs : Int)) :=
      convertCore_all_digits b false (toBaseChars (baseNat b) true n.natAbs)
        n.natAbs hne hall hfold hr
    have hscan2 : scanChars (String.mk (([] : List Char) ++ toBaseChars (baseNat b) true n.natAbs))
        { base := some b } = (false, b, toBaseChars (baseNat b) true n.natAbs) :=
      scanChars_signed_digits b false (toBaseChars (baseNat b) true n.natAbs) hne hall
    rw [if_neg hn] at hrender
    unfold convert
    rw [hrender, hscan2]
    show convertCore false b (toBaseChars (baseNat b) true n.natAbs) =
      ConversionResult.Success n
    rw [hcore]
    congr 1
    omega

/-- Closed witness for C1: the round-trip theorem at base hexadecimal and
the in-range value −255. -/
theorem render_convert_roundtrip_witness :
    intMin ≤ (-255 : Int) ∧ (-255 : Int) ≤ intMax
    ∧ convert (render (-255) { base := some Base.hex }) { base := some Base.hex } =
        ConversionResult.Success (-255) :=
  ⟨by decide, by decide,
    render_convert_roundtrip Base.hex (-255) (by decide) (by decide)⟩

end Convert

namespace Convert

lemma isEmpty_false_of_ne_nil {α : Type} {l : List α} (h : l ≠ []) :
    l.isEmpty = false := by
  cases l with
  | nil => exact absurd rfl h
  | cons a t => rfl

/-- C2: the throwing accessor `value` raises `ConversionError` on a
Failure result — it is the only accessor with an exceptional (`Except`)
result type, and on every Success it yields a plain value instead; the
non-throwing accessor `valueOr` applied to the same Failure returns its
default without raising. -/
theorem value_raises_conversion_error_on_failure :
    value ConversionResult.Failure = Except.error ConversionError.mk
    ∧ (∀ v : Int, value (ConversionResult.Success v) = Except.ok v)
    ∧ (∀ d : Int, valueOr ConversionResult.Failure d = d) :=
  ⟨rfl, fun _ => rfl, fun _ => rfl⟩

/-- C3: `valueOr` never raises — it is a total function returning the
contained value on Success and the default on Failure; in particular
`convert "not an int"` under base decimal with default −1 gives −1. -/
theorem valueOr_unwraps_or_default :
    (∀ v d : Int, valueOr (ConversionResult.Success v) d = v)
    ∧ (∀ d : Int, valueOr ConversionResult.Failure d = d)
    ∧ valueOr (convert "not an int" { base := some Base.dec }) (-1) = -1 :=
  ⟨fun _ _ => rfl, fun _ => rfl, by decide⟩

/-- C4: rendering 15 with base hexadecimal, upper case and `showBase`
produces exactly "0XF". -/
theorem render_fifteen_hex_upper_showbase :
    render 15 { base := some Base.hex, letterCase := LetterCase.upper, showBase := true }
      = "0XF" := by decide

/-- C5: output shorter than `width` is padded with `fill` on the side
given by `adjustment`; right adjustment (left padding) is the default. -/
theorem render_pads_to_width :
    render 12 { width := 5, fill := '*', adjustment := Adjustment.right } = "***12"
    ∧ render 12 { width := 5, fill := 'x', adjustment := Adjustment.left } = "12xxx"
    ∧ render 12 { width := 5, fill := '*' } = "***12" :=
  ⟨by decide, by decide, by decide⟩

/-- C6: with `skipLeadingWhitespace` set, leading whitespace before the
numeral is ignored: `convert " 5"` under base hexadecimal succeeds with 5. -/
theorem convert_skips_leading_whitespace :
    convert " 5" { base := some Base.hex, skipLeadingWhitespace := true }
      = ConversionResult.Success 5 := by decide

/-- C7: parsing consumes the longest valid digit prefix of the effective
base (second conjunct: the consumed characters are a maximal all-digit
prefix, the first unconsumed character being a non-digit when one exists),
and whenever no digit was consumed or meaningful (non-whitespace)
characters remain after the numeral, the conversion is a Failure, never a
partial Success (first conjunct). -/
theorem convert_longest_prefix_or_failure :
    (∀ (s : String) (cfg : Configuration),
      ((takeDigits (baseNat (scanChars s cfg).2.1) (scanChars s cfg).2.2).1 = []
        ∨ ((takeDigits (baseNat (scanChars s cfg).2.1) (scanChars s cfg).2.2).2.dropWhile isWs) ≠ [])
      → convert s cfg = ConversionResult.Failure)
    ∧ (∀ (b : Nat) (l : List Char), ∃ pre : List Char,
        l = pre ++ (takeDigits b l).2
        ∧ (takeDigits b l).1 = pre.map (fun c => (digitVal b c).getD 0)
        ∧ (∀ c ∈ pre, (digitVal b c).isSome)
        ∧ ((takeDigits b l).2 = [] ∨ digitVal b ((takeDigits b l).2.headD ' ') = none)) := by
  constructor
  · intro s cfg h
    simp only [convert, convertCore]
    rcases h with h | h
    · simp [h]
    · have hf := isEmpty_false_of_ne_nil h
      simp [hf]
  · intro b l
    induction l with
    | nil => exact ⟨[], rfl, rfl, by simp, Or.inl rfl⟩
    | cons c cs ih =>
      obtain ⟨pre, hp1, hp2, hp3, hp4⟩ := ih
      cases hdv : digitVal b c with
      | none =>
        refine ⟨[], by simp [takeDigits, hdv], by simp [takeDigits, hdv],
          by simp, Or.inr ?_⟩
        simp [takeDigits, hdv]
      | some d =>
        have h2 : (takeDigits b (c :: cs)).2 = (takeDigits b cs).2 := by
          simp [takeDigits, hdv]
        have h1 : (takeDigits b (c :: cs)).1 = d :: (takeDigits b cs).1 := by
          simp [takeDigits, hdv]
        refine ⟨c :: pre, ?_, ?_, ?_, ?_⟩
        · rw [h2, List.cons_append]
          exact congrArg (List.cons c) hp1
        · rw [h1, hp2, List.map_cons]
          simp [hdv]
        · intro x hx
          rcases List.mem_cons.mp hx with hx | hx
          · rw [hx, hdv]; rfl
          · exact hp3 x hx
        · rw [h2]; exact hp4

/-- Closed witness for C7: the empty-numeral input "not an int" yields a
Failure. -/
theorem convert_longest_prefix_or_failure_witness :
    convert "not an int" {} = ConversionResult.Failure :=
  convert_longest_prefix_or_failure.1 "not an int" {} (Or.inl (by decide))

/-- C8: conversion is deterministic and free of cross-call state — in a
sequence of conversions, each call's result is exactly `convert` of its
own source and configuration, independent of whatever conversions were
run before or after it. -/
theorem convert_no_cross_call_state (before after : List (String × Configuration))
    (s : String) (cfg : Configuration) :
    runAll (before ++ (s, cfg) :: after)
      = runAll before ++ convert s cfg :: runAll after := by
  simp [runAll]

/-- C9: with base explicitly configured as hexadecimal, an input carrying
the "0X" radix marker still parses: the marker is consumed, not treated as
trailing garbage. -/
theorem convert_hex_accepts_radix_marker :
    convert "0XF" { base := some Base.hex } = ConversionResult.Success 15 := by decide

/-- C10: under the default configuration a leading minus sign is accepted
and yields the corresponding negative integer. -/
theorem convert_accepts_minus_sign :
    convert "-11" {} = ConversionResult.Success (-11)
    ∧ convert "-12" {} = ConversionResult.Success (-12) :=
  ⟨by decide, by decide⟩

end Convert
